import Mathlib

set_option maxRecDepth 8192

/-!
Verification of the version-bump and registry-diff logic of the template
registry build script (`scripts/test-build-registry.ts`).

The script defines two pure functions:
  * `bumpSemver(v, part)`: matches `v` against the JavaScript regular
    expression `^(\d+)\.(\d+)\.(\d+)(?:[.-].*)?$`, returns `1.0.0` on no
    match, and otherwise increments the component selected by `part`
    (resetting lower components) and prints the bare triple.
  * `calculateNextVersion(liveRegistry, localTemplateIds, bumpPart)`:
    diffs the local identifier list against the previous snapshot's
    identifier set and bumps the base version exactly once when any new
    identifier is present.

Both are embedded below as executable Lean functions over `String`,
`List`, and `Nat`, mirroring the TypeScript line by line.  JavaScript
regular-expression details that matter are modelled faithfully: `\d` is
the ASCII digits, and `.` (in the optional suffix `.*`) matches every
character except the four line terminators.

JavaScript numbers are IEEE-754 doubles, so the arithmetic of
`bumpSemver` is modelled on doubles, not on exact integers: every
number reachable in this script is a non-negative integral double (or
infinity), represented here as its exact integer value (`JSNum`).
`parseInt` rounds the decimal value of the digit run to the nearest
double (ties to even, overflow to infinity), `+ 1` rounds the exact
successor the same way, and the template literal prints a number by the
ECMA-262 Number::toString(10) algorithm (shortest decimal that rounds
back to the double; plain digits below 10^21 and exponential notation
at or above it).  In particular `bumpSemver` of `9007199254740993.0.0`
(2^53 + 1) yields `9007199254740992.0.0`, because 2^53 + 1 rounds to
2^53 and 2^53 + 1.0 rounds back to 2^53.
-/

namespace Registry

/-- Bump category, the TypeScript union type `BumpPart = 'major' | 'minor' | 'patch'`.
The TypeScript functions default the parameter to `minor`; in this
development the argument is always passed explicitly. -/
inductive BumpPart where
  | major
  | minor
  | patch
deriving DecidableEq, Repr

/-- One entry of the registry's template array: the record `{ id: string }`. -/
structure Template where
  id : String
deriving DecidableEq, Repr

/-- The registry snapshot record `RegistryFile { version: string; templates: { id: string }[] }`. -/
structure RegistryFile where
  version : String
  templates : List Template
deriving DecidableEq, Repr

/-- The result record of `calculateNextVersion`:
`{ baseVersion: string; nextVersion: string; newIds: string[] }`. -/
structure DiffResult where
  baseVersion : String
  nextVersion : String
  newIds : List String
deriving DecidableEq, Repr

/-- Split a character list into its longest digit run and the rest,
modelling the greedy `\d+` of the regular expression (JavaScript `\d`
is exactly the ASCII digits `0`-`9`, matching `Char.isDigit`). -/
def takeDigits : List Char → List Char × List Char
  | [] => ([], [])
  | c :: cs =>
    if c.isDigit then
      let r := takeDigits cs
      (c :: r.1, r.2)
    else
      ([], c :: cs)

/-- Decimal value of a digit run, modelling `parseInt(n, 10)` on a
string of ASCII digits. -/
def digitsToNat (ds : List Char) : Nat :=
  ds.foldl (fun acc c => acc * 10 + (c.toNat - Char.toNat '0')) 0

/-- The four JavaScript line terminators, the characters NOT matched by
`.` in a regular expression without the `s` flag. -/
def isLineTerm (c : Char) : Bool :=
  c = Char.ofNat 10 || c = Char.ofNat 13 || c = Char.ofNat 0x2028 || c = Char.ofNat 0x2029

/-- Whether the remainder after the numeric triple is accepted by
`(?:[.-].*)?$`: either nothing is left, or a `.`/`-` separator followed
by suffix text that `.*` can span (no line terminators). -/
def suffixMatches : List Char → Bool
  | [] => true
  | c :: cs => (c = '.' || c = '-') && cs.all (fun d => !(isLineTerm d))

/-- The match `String(v).match(/^(\d+)\.(\d+)\.(\d+)(?:[.-].*)?$/)` on the
character list of `v`, returning the three captured components as
decimal numbers, or `none` when the string does not match.  Greedy
`\d+` runs are maximal digit runs; since a digit can satisfy neither
the literal `.` nor the suffix class `[.-]`, maximal munch is exactly
the regular expression's backtracking behaviour. -/
def matchSemverChars (cs : List Char) : Option (Nat × Nat × Nat) :=
  let p1 := takeDigits cs
  if p1.1 = [] then none else
  match p1.2 with
  | '.' :: rest1 =>
    let p2 := takeDigits rest1
    if p2.1 = [] then none else
    match p2.2 with
    | '.' :: rest2 =>
      let p3 := takeDigits rest2
      if p3.1 = [] then none else
      if suffixMatches p3.2 then
        some (digitsToNat p1.1, digitsToNat p2.1, digitsToNat p3.1)
      else none
    | _ => none
  | _ => none

/-- Semver match on a `String` (the script applies `String(v)` to its
argument, the identity on strings). -/
def matchSemver (v : String) : Option (Nat × Nat × Nat) :=
  matchSemverChars v.data

/-- Fuel-driven floor base-2 logarithm (the fuel argument only bounds
the recursion; any fuel at least the logarithm gives the exact value). -/
def log2Fuel : Nat → Nat → Nat
  | 0, _ => 0
  | fuel + 1, n => if n ≤ 1 then 0 else log2Fuel fuel (n / 2) + 1

/-- Floor base-2 logarithm; `n` bounds its own logarithm, so `n` is
sufficient fuel. -/
def binLog (n : Nat) : Nat := log2Fuel n n

/-- A JavaScript number as it occurs in this script: every reachable
value is a non-negative integral IEEE-754 double (carried as its exact
integer value) or positive infinity. -/
inductive JSNum where
  | finite (n : Nat)
  | infinity
deriving DecidableEq, Repr

/-- Round a non-negative integer to the nearest IEEE-754 double with
ties to even, as `parseInt` and floating-point addition do.  Integers
up to 2^53 are exactly representable; in the binade `[2^L, 2^(L+1))`
the representable values are the multiples of `2^(L-52)`, so the value
rounds to the nearest such multiple (on a tie, to the one with even
mantissa); a result at or beyond 2^1024 overflows to infinity. -/
def roundNatToDouble (n : Nat) : JSNum :=
  if n ≤ 2 ^ 53 then JSNum.finite n
  else
    let u := 2 ^ (binLog n - 52)
    let q := n / u
    let rounded :=
      if 2 * (n % u) < u then q * u
      else if u < 2 * (n % u) then (q + 1) * u
      else if q % 2 = 0 then q * u else (q + 1) * u
    if rounded < 2 ^ 1024 then JSNum.finite rounded else JSNum.infinity

/-- The JavaScript addition `x + 1` on the script's numbers: the exact
successor rounded back to a double (infinity absorbs). -/
def addOneJS : JSNum → JSNum
  | JSNum.infinity => JSNum.infinity
  | JSNum.finite n => roundNatToDouble (n + 1)

/-- Decimal digits of `n`, least significant first, fuel-driven. -/
def natToRevDigits : Nat → Nat → List Nat
  | 0, _ => []
  | fuel + 1, n => if n = 0 then [] else n % 10 :: natToRevDigits fuel (n / 10)

/-- Decimal digit string of a natural number (a positive `n` has at
most `n` digits, so `n` is sufficient fuel). -/
def natToString (n : Nat) : String :=
  if n = 0 then "0"
  else String.mk ((natToRevDigits n n).reverse.map fun d => Char.ofNat (48 + d))

/-- Number of decimal digits of a positive natural number. -/
def digitLen (n : Nat) : Nat := (natToRevDigits n n).length

/-- Search of the ECMA-262 Number::toString(10) representation
`(k, s, n)` of the integral double `m`: for each digit count `k`
(shortest first) the decimal approximations `s * 10 ^ (dL - k)` of `m`
closest to `m` are the two multiples of `10 ^ (dL - k)` bracketing `m`;
a digit count succeeds when such a multiple rounds back to the double
`m`, choosing the closer multiple (on a tie, the even mantissa `s`).
When the upper mantissa rolls over to `10 ^ k` it stands for the
representation `10 ^ (k - 1)` at position `dL + 1`. -/
def shortestLoop (m dL : Nat) : Nat → Nat → Nat × Nat × Nat
  | 0, _ => (dL, m, dL)
  | fuel + 1, k =>
    let d := 10 ^ (dL - k)
    let q := m / d
    let s2 := if q + 1 = 10 ^ k then 10 ^ (k - 1) else q + 1
    let n2 := if q + 1 = 10 ^ k then dL + 1 else dL
    if roundNatToDouble (q * d) = JSNum.finite m then
      if roundNatToDouble ((q + 1) * d) = JSNum.finite m then
        if m - q * d < (q + 1) * d - m then (k, q, dL)
        else if (q + 1) * d - m < m - q * d then (k, s2, n2)
        else if q % 2 = 0 then (k, q, dL) else (k, s2, n2)
      else (k, q, dL)
    else if roundNatToDouble ((q + 1) * d) = JSNum.finite m then (k, s2, n2)
    else shortestLoop m dL fuel (k + 1)

/-- The shortest decimal representation `(k, s, n)` of the positive
integral double `m`: `s` has `k` digits and `s * 10 ^ (n - k)` rounds
to `m`, with `k` as small as possible. -/
def shortestDigits (m : Nat) : Nat × Nat × Nat :=
  shortestLoop m (digitLen m) (digitLen m) 1

/-- ECMA-262 ToString applied to a non-negative integral double:
positions `n ≤ 21` print the digits of `s` followed by `n - k` zeros;
larger magnitudes print in exponential notation `s_1.s_rest e+(n-1)`. -/
def jsIntToString (m : Nat) : String :=
  if m = 0 then "0"
  else
    let t := shortestDigits m
    if t.2.2 ≤ 21 then
      natToString t.2.1 ++ String.mk (List.replicate (t.2.2 - t.1) '0')
    else
      (if t.1 = 1 then natToString t.2.1
       else (natToString t.2.1).take 1 ++ "." ++ (natToString t.2.1).drop 1) ++
        "e+" ++ natToString (t.2.2 - 1)

/-- String conversion of a JavaScript number inside a template literal. -/
def jsNumToString : JSNum → String
  | JSNum.finite n => jsIntToString n
  | JSNum.infinity => "Infinity"

/-- The template literal `` `${major}.${minor}.${patch}` `` on the
script's JavaScript numbers. -/
def semverString (major minor patch : JSNum) : String :=
  jsNumToString major ++ "." ++ jsNumToString minor ++ "." ++ jsNumToString patch

/-- The `bumpSemver` function of the script: parse the leading numeric
triple, return the fallback `1.0.0` when the regular expression does
not match, otherwise convert the captured digit runs with `parseInt`
(the decimal value rounded to a double), bump the chosen component with
floating-point `+= 1` (`major` resets minor and patch, `minor` resets
patch, `patch` touches only patch; the resets store the exact double
0), and print the triple through the template literal. -/
def bumpSemver (v : String) (part : BumpPart) : String :=
  match matchSemver v with
  | none => "1.0.0"
  | some (a, b, c) =>
    let major := roundNatToDouble a
    let minor := roundNatToDouble b
    let patch := roundNatToDouble c
    match part with
    | BumpPart.major => semverString (addOneJS major) (JSNum.finite 0) (JSNum.finite 0)
    | BumpPart.patch => semverString major minor (addOneJS patch)
    | BumpPart.minor => semverString major (addOneJS minor) (JSNum.finite 0)

/-- The known identifier list `(liveRegistry?.templates || []).map((t) => t.id)`
(the script puts it in a `Set`; membership in the list is the model of
`Set.has` since `Set` membership on strings is string equality). -/
def prevIdsOf (liveRegistry : Option RegistryFile) : List String :=
  ((liveRegistry.map RegistryFile.templates).getD []).map Template.id

/-- The `calculateNextVersion` function of the script.  `baseVersion`
models `liveRegistry?.version || '1.0.0'`: the empty string is the one
falsy string in JavaScript, so a present registry with empty `version`
also falls back to `1.0.0`. -/
def calculateNextVersion (liveRegistry : Option RegistryFile)
    (localTemplateIds : List String) (bumpPart : BumpPart) : DiffResult :=
  let prevIds := prevIdsOf liveRegistry
  let newIds := localTemplateIds.filter (fun i => !(prevIds.contains i))
  let baseVersion :=
    match liveRegistry with
    | none => "1.0.0"
    | some r => if r.version = "" then "1.0.0" else r.version
  let nextVersion := if newIds.length > 0 then bumpSemver baseVersion bumpPart else baseVersion
  ⟨baseVersion, nextVersion, newIds⟩

end Registry

namespace Registry

/-- Projection of the diff result onto its identifier list. -/
lemma newIds_eq (prev : Option RegistryFile) (ids : List String) (part : BumpPart) :
    (calculateNextVersion prev ids part).newIds =
      ids.filter (fun i => !((prevIdsOf prev).contains i)) := rfl

/-- Projection of the diff result onto its base version. -/
lemma baseVersion_eq (prev : Option RegistryFile) (ids : List String) (part : BumpPart) :
    (calculateNextVersion prev ids part).baseVersion =
      match prev with
      | none => "1.0.0"
      | some r => if r.version = "" then "1.0.0" else r.version := rfl

/-- Projection of the diff result onto its next version. -/
lemma nextVersion_eq (prev : Option RegistryFile) (ids : List String) (part : BumpPart) :
    (calculateNextVersion prev ids part).nextVersion =
      (if (ids.filter (fun i => !((prevIdsOf prev).contains i))).length > 0
        then bumpSemver (calculateNextVersion prev ids part).baseVersion part
        else (calculateNextVersion prev ids part).baseVersion) := rfl

/-- The minor bump of the bootstrap version, evaluated once and for all. -/
lemma bump_one_zero_zero_minor : bumpSemver "1.0.0" BumpPart.minor = "1.1.0" := by decide

/-- Correctness of the fuel-driven base-2 logarithm when the fuel is
at least the argument. -/
lemma log2Fuel_spec : ∀ fuel n, 1 ≤ n → n ≤ fuel →
    2 ^ log2Fuel fuel n ≤ n ∧ n < 2 ^ (log2Fuel fuel n + 1) := by
  intro fuel
  induction fuel with
  | zero => intro n h1 h2; omega
  | succ fuel ih =>
    intro n h1 h2
    by_cases hn : n ≤ 1
    · have : n = 1 := by omega
      subst this
      simp [log2Fuel]
    · have hrec : log2Fuel (fuel + 1) n = log2Fuel fuel (n / 2) + 1 := by
        simp [log2Fuel, hn]
      have hdiv1 : 1 ≤ n / 2 := by omega
      have hdiv2 : n / 2 ≤ fuel := by omega
      obtain ⟨ih1, ih2⟩ := ih (n / 2) hdiv1 hdiv2
      rw [hrec]
      constructor
      · rw [pow_succ]
        omega
      · rw [pow_succ] at ih2
        rw [pow_succ, pow_succ]
        omega

/-- Bracketing property of `binLog`. -/
lemma binLog_spec (n : Nat) (h : 1 ≤ n) :
    2 ^ binLog n ≤ n ∧ n < 2 ^ (binLog n + 1) :=
  log2Fuel_spec n n h le_rfl

/-- Integers up to 2^53 are exactly representable doubles, so rounding
them is the identity. -/
lemma round_small (m : Nat) (h : m ≤ 2 ^ 53) :
    roundNatToDouble m = JSNum.finite m := by
  unfold roundNatToDouble
  rw [if_pos h]

/-- Rounding an integer strictly above 2^53 never produces a finite
double below 2^53, and produces exactly 2^53 only from 2^53 + 1. -/
lemma round_large (c r : Nat) (hc : 2 ^ 53 < c)
    (h : roundNatToDouble c = JSNum.finite r) :
    2 ^ 53 ≤ r ∧ (r = 2 ^ 53 → c = 2 ^ 53 + 1) := by
  have hc1 : 1 ≤ c := by omega
  obtain ⟨hL1, hL2⟩ := binLog_spec c hc1
  have hL53 : 53 ≤ binLog c := by
    by_contra hlt
    have hble : binLog c + 1 ≤ 53 := by omega
    have : 2 ^ (binLog c + 1) ≤ 2 ^ 53 := Nat.pow_le_pow_right (by omega) hble
    omega
  have hupos : 0 < 2 ^ (binLog c - 52) := Nat.pos_pow_of_pos _ (by omega)
  have hqlb : 2 ^ 52 ≤ c / 2 ^ (binLog c - 52) := by
    rw [Nat.le_div_iff_mul_le hupos]
    have : 2 ^ 52 * 2 ^ (binLog c - 52) = 2 ^ binLog c := by
      rw [← pow_add]
      congr 1
      omega
    omega
  have main : ∀ x, (x = c / 2 ^ (binLog c - 52) * 2 ^ (binLog c - 52) ∨
      x = (c / 2 ^ (binLog c - 52) + 1) * 2 ^ (binLog c - 52)) →
      2 ^ 53 ≤ x ∧ (x = 2 ^ 53 → c = 2 ^ 53 + 1) := by
    intro x hx
    have hxlb : c / 2 ^ (binLog c - 52) * 2 ^ (binLog c - 52) ≤ x := by
      rcases hx with hx | hx <;> rw [hx] <;> nlinarith [hupos]
    have hpw : 2 ^ 53 ≤ 2 ^ binLog c := Nat.pow_le_pow_right (by omega) hL53
    have hx53 : 2 ^ 53 ≤ x := by
      have : 2 ^ binLog c ≤ c / 2 ^ (binLog c - 52) * 2 ^ (binLog c - 52) := by
        calc 2 ^ binLog c = 2 ^ 52 * 2 ^ (binLog c - 52) := by
              rw [← pow_add]; congr 1; omega
          _ ≤ c / 2 ^ (binLog c - 52) * 2 ^ (binLog c - 52) :=
              Nat.mul_le_mul_right _ hqlb
      omega
    refine ⟨hx53, ?_⟩
    intro hxeq
    have hLe : binLog c = 53 := by
      by_contra hne
      have h54 : 54 ≤ binLog c := by omega
      have : 2 ^ 54 ≤ 2 ^ binLog c := Nat.pow_le_pow_right (by omega) h54
      have h254 : (2 : Nat) ^ 54 = 2 * 2 ^ 53 := by rw [← pow_succ']
      have : 2 ^ binLog c ≤ c / 2 ^ (binLog c - 52) * 2 ^ (binLog c - 52) := by
        calc 2 ^ binLog c = 2 ^ 52 * 2 ^ (binLog c - 52) := by
              rw [← pow_add]; congr 1; omega
          _ ≤ c / 2 ^ (binLog c - 52) * 2 ^ (binLog c - 52) :=
              Nat.mul_le_mul_right _ hqlb
      omega
    rw [hLe] at hx hqlb
    norm_num at hx hqlb
    have hdm := Nat.div_add_mod c 2
    have hmod : c % 2 < 2 := Nat.mod_lt _ (by omega)
    rcases hx with hx | hx <;> omega
  have hfin : r = c / 2 ^ (binLog c - 52) * 2 ^ (binLog c - 52) ∨
      r = (c / 2 ^ (binLog c - 52) + 1) * 2 ^ (binLog c - 52) := by
    unfold roundNatToDouble at h
    rw [if_neg (by omega)] at h
    simp only [] at h
    split at h
    · split at h
      · exact Or.inl (by injection h with h; omega)
      · exact absurd h (by simp)
    · split at h
      · split at h
        · exact Or.inr (by injection h with h; omega)
        · exact absurd h (by simp)
      · split at h
        · split at h
          · exact Or.inl (by injection h with h; omega)
          · exact absurd h (by simp)
        · split at h
          · exact Or.inr (by injection h with h; omega)
          · exact absurd h (by simp)
  exact main r hfin

/-- The floating-point increment is exact on integers below 2^53. -/
lemma addOneJS_small (a : Nat) (h : a < 2 ^ 53) :
    addOneJS (JSNum.finite a) = JSNum.finite (a + 1) := by
  unfold addOneJS
  exact round_small (a + 1) (by omega)

/-- The digit extraction ignores the fuel as long as the fuel bounds
the digit count. -/
lemma natToRevDigits_fuel : ∀ f g n, n < 10 ^ f → n < 10 ^ g →
    natToRevDigits f n = natToRevDigits g n := by
  intro f
  induction f with
  | zero =>
    intro g n hf hg
    have : n = 0 := by simpa using hf
    subst this
    cases g <;> simp [natToRevDigits]
  | succ f ih =>
    intro g n hf hg
    by_cases hn : n = 0
    · subst hn
      cases g <;> simp [natToRevDigits]
    · have hg1 : g ≠ 0 := by
        rintro rfl
        simp at hg
        omega
      obtain ⟨g, rfl⟩ := Nat.exists_eq_succ_of_ne_zero hg1
      simp only [natToRevDigits, if_neg hn]
      rw [ih g (n / 10) ?_ ?_]
      · rw [pow_succ] at hf
        omega
      · rw [pow_succ] at hg
        omega

/-- The digit count extracted with fuel `f` is bounded by any `j` with
`n < 10 ^ j`. -/
lemma natToRevDigits_len : ∀ f n j, n < 10 ^ j →
    (natToRevDigits f n).length ≤ j := by
  intro f
  induction f with
  | zero => intro n j _; simp [natToRevDigits]
  | succ f ih =>
    intro n j hj
    by_cases hn : n = 0
    · subst hn; simp [natToRevDigits]
    · have hj1 : j ≠ 0 := by
        rintro rfl
        simp at hj
        omega
      obtain ⟨j, rfl⟩ := Nat.exists_eq_succ_of_ne_zero hj1
      simp only [natToRevDigits, if_neg hn, List.length_cons]
      have : (natToRevDigits f (n / 10)).length ≤ j := by
        apply ih
        rw [pow_succ] at hj
        omega
      omega

/-- Peeling `z` factors of ten off the digit extraction produces `z`
trailing zero digits. -/
lemma natToRevDigits_mul_pow : ∀ z fuel s, 1 ≤ s →
    natToRevDigits (z + fuel) (s * 10 ^ z) =
      List.replicate z 0 ++ natToRevDigits fuel s := by
  intro z
  induction z with
  | zero => intro fuel s _; simp
  | succ z ih =>
    intro fuel s hs
    have hpos : s * 10 ^ (z + 1) ≠ 0 := by positivity
    have hstep : z + 1 + fuel = (z + fuel) + 1 := by omega
    rw [hstep]
    simp only [natToRevDigits, if_neg hpos]
    have hmul : s * 10 ^ (z + 1) = s * 10 ^ z * 10 := by ring
    rw [hmul, Nat.mul_mod_left, Nat.mul_div_cancel _ (by omega)]
    rw [ih fuel s hs]
    simp [List.replicate_succ]

/-- Concatenation law for `String.mk`. -/
lemma string_mk_append (xs ys : List Char) :
    String.mk xs ++ String.mk ys = String.mk (xs ++ ys) := rfl

/-- Printing a number with `z` trailing zeros splits into the digits of
its mantissa followed by `z` zero characters. -/
lemma natToString_mul_pow (z s : Nat) (hs : 1 ≤ s) :
    natToString (s * 10 ^ z) =
      natToString s ++ String.mk (List.replicate z '0') := by
  have hm1 : s * 10 ^ z ≠ 0 := by positivity
  have hlt : ∀ n : Nat, n < 10 ^ n := fun n => Nat.lt_pow_self (by omega) n
  unfold natToString
  rw [if_neg hm1, if_neg (by omega)]
  have hswap : natToRevDigits (s * 10 ^ z) (s * 10 ^ z) =
      natToRevDigits (z + s) (s * 10 ^ z) := by
    apply natToRevDigits_fuel
    · exact hlt _
    · calc s * 10 ^ z < 10 ^ s * 10 ^ z :=
            (Nat.mul_lt_mul_right (Nat.pos_pow_of_pos _ (by omega))).mpr (hlt s)
        _ = 10 ^ (z + s) := by rw [← pow_add, Nat.add_comm]
  rw [hswap, natToRevDigits_mul_pow z s s hs]
  rw [List.reverse_append, List.reverse_replicate, List.map_append,
    List.map_replicate, string_mk_append]

/-- Invariant of the representation search for targets in the exact
range: whatever triple `(k, s, n)` it returns satisfies `n = dL` and
`s * 10 ^ (dL - k) = m`, so the printed digits are exactly the decimal
digits of `m`. -/
lemma shortestLoop_spec (m dL : Nat) (hm : 1 ≤ m) (h53 : m ≤ 2 ^ 53) :
    ∀ fuel k,
      (shortestLoop m dL fuel k).2.2 = dL ∧
      (shortestLoop m dL fuel k).2.1 *
        10 ^ (dL - (shortestLoop m dL fuel k).1) = m := by
  intro fuel
  induction fuel with
  | zero => intro k; simp [shortestLoop]
  | succ fuel ih =>
    intro k
    have hdpos : 0 < 10 ^ (dL - k) := Nat.pos_pow_of_pos _ (by omega)
    have hdm := Nat.div_add_mod m (10 ^ (dL - k))
    have hmod : m % 10 ^ (dL - k) < 10 ^ (dL - k) := Nat.mod_lt _ hdpos
    have hc1le : m / 10 ^ (dL - k) * 10 ^ (dL - k) ≤ m := Nat.div_mul_le_self _ _
    simp only [shortestLoop]
    split
    · rename_i h1
      have hc1 : m / 10 ^ (dL - k) * 10 ^ (dL - k) = m := by
        rw [round_small _ (by omega)] at h1
        injection h1
      have hsucc : (m / 10 ^ (dL - k) + 1) * 10 ^ (dL - k) =
          m / 10 ^ (dL - k) * 10 ^ (dL - k) + 10 ^ (dL - k) := by ring
      split
      · rw [if_pos (by omega)]
        exact ⟨rfl, hc1⟩
      · exact ⟨rfl, hc1⟩
    · rename_i h1
      split
      · rename_i h2
        exfalso
        have hgt : m < (m / 10 ^ (dL - k) + 1) * 10 ^ (dL - k) := by nlinarith
        by_cases hc2 : (m / 10 ^ (dL - k) + 1) * 10 ^ (dL - k) ≤ 2 ^ 53
        · rw [round_small _ hc2] at h2
          injection h2 with h2
          omega
        · obtain ⟨hr1, hr2⟩ := round_large _ _ (by omega) h2
          have hm53 : m = 2 ^ 53 := by omega
          have hc2eq : (m / 10 ^ (dL - k) + 1) * 10 ^ (dL - k) = 2 ^ 53 + 1 :=
            hr2 hm53
          by_cases hz : dL - k = 0
          · rw [hz] at h1
            simp at h1
            exact h1 (round_small m h53)
          · obtain ⟨j, hj⟩ := Nat.exists_eq_succ_of_ne_zero hz
            have h2dvd : 2 ∣ (m / 10 ^ (dL - k) + 1) * 10 ^ (dL - k) := by
              apply Dvd.dvd.mul_left
              rw [hj, pow_succ]
              exact Dvd.dvd.mul_left (by omega) _
            have h2dvd53 : 2 ∣ 2 ^ 53 := dvd_pow_self 2 (by omega)
            omega
      · exact ih (k + 1)

/-- ECMA printing agrees with plain decimal printing on the exactly
representable integers. -/
lemma jsIntToString_small (m : Nat) (h53 : m ≤ 2 ^ 53) :
    jsIntToString m = natToString m := by
  by_cases hm : m = 0
  · subst hm
    rfl
  · have hm1 : 1 ≤ m := by omega
    have hsd : shortestDigits m = shortestLoop m (digitLen m) (digitLen m) 1 := rfl
    obtain ⟨ht2, htm⟩ :=
      shortestLoop_spec m (digitLen m) hm1 h53 (digitLen m) 1
    rw [← hsd] at ht2 htm
    have hlen : digitLen m ≤ 17 := by
      have hlt : m < 10 ^ 17 := by
        have : (2 : Nat) ^ 53 < 10 ^ 17 := by norm_num
        omega
      exact natToRevDigits_len m m 17 hlt
    have hs1 : 1 ≤ (shortestDigits m).2.1 := by
      rcases Nat.eq_zero_or_pos (shortestDigits m).2.1 with hz | hp
      · exfalso
        rw [hz] at htm
        simp at htm
        omega
      · exact hp
    unfold jsIntToString
    rw [if_neg hm]
    simp only []
    rw [if_pos (by omega)]
    rw [ht2]
    conv_rhs => rw [← htm]
    rw [natToString_mul_pow _ _ hs1]

/-- C1 counterexample: at `"9007199254740993.0.0"` (major component
2^53 + 1) the program returns `"9007199254740992.0.0"`, because
`parseInt` rounds 2^53 + 1 to the double 2^53 and the floating-point
increment rounds 2^53 + 1 back to 2^53 — not the exact
`(MAJOR+1).0.0 = "9007199254740994.0.0"` the claim requires. -/
theorem bumpSemver_wellFormed_cex :
    matchSemver "9007199254740993.0.0" = some (9007199254740993, 0, 0) ∧
    bumpSemver "9007199254740993.0.0" BumpPart.major = "9007199254740992.0.0" ∧
    "9007199254740992.0.0" ≠ "9007199254740994.0.0" := by
  refine ⟨by decide, by decide, by decide⟩

/-- C1 amended: on a well-formed input whose captured components are
all below 2^53 — the regime where `parseInt`, the floating-point
increment and the decimal printing are exact — bumping with `major`
yields `(a+1).0.0`, with `minor` yields `a.(b+1).0`, and with `patch`
yields `a.b.(c+1)`: a bare normalized triple with the suffix dropped. -/
theorem bumpSemver_wellFormed (v : String) (a b c : Nat)
    (h : matchSemver v = some (a, b, c))
    (ha : a < 2 ^ 53) (hb : b < 2 ^ 53) (hc : c < 2 ^ 53) :
    bumpSemver v BumpPart.major =
      natToString (a + 1) ++ "." ++ natToString 0 ++ "." ++ natToString 0 ∧
    bumpSemver v BumpPart.minor =
      natToString a ++ "." ++ natToString (b + 1) ++ "." ++ natToString 0 ∧
    bumpSemver v BumpPart.patch =
      natToString a ++ "." ++ natToString b ++ "." ++ natToString (c + 1) := by
  have ea : roundNatToDouble a = JSNum.finite a := round_small a (by omega)
  have eb : roundNatToDouble b = JSNum.finite b := round_small b (by omega)
  have ec : roundNatToDouble c = JSNum.finite c := round_small c (by omega)
  have fa := addOneJS_small a ha
  have fb := addOneJS_small b hb
  have fc := addOneJS_small c hc
  refine ⟨?_, ?_, ?_⟩ <;>
    simp only [bumpSemver, h, ea, eb, ec, fa, fb, fc, semverString, jsNumToString,
      jsIntToString_small (a + 1) (by omega), jsIntToString_small a (by omega),
      jsIntToString_small (b + 1) (by omega), jsIntToString_small b (by omega),
      jsIntToString_small (c + 1) (by omega), jsIntToString_small c (by omega),
      jsIntToString_small 0 (by omega)]

/-- Witness for the amended C1 at the suffixed input `"1.2.3-beta.1"`. -/
theorem bumpSemver_wellFormed_witness :
    bumpSemver "1.2.3-beta.1" BumpPart.major =
      natToString (1 + 1) ++ "." ++ natToString 0 ++ "." ++ natToString 0 ∧
    bumpSemver "1.2.3-beta.1" BumpPart.minor =
      natToString 1 ++ "." ++ natToString (2 + 1) ++ "." ++ natToString 0 ∧
    bumpSemver "1.2.3-beta.1" BumpPart.patch =
      natToString 1 ++ "." ++ natToString 2 ++ "." ++ natToString (3 + 1) :=
  bumpSemver_wellFormed "1.2.3-beta.1" 1 2 3 (by decide)
    (by norm_num) (by norm_num) (by norm_num)

/-- C3: on any input the regular expression rejects, `bumpSemver` does
not fail and returns the fixed fallback `"1.0.0"`, for every category. -/
theorem bumpSemver_fallback (v : String) (h : matchSemver v = none) :
    bumpSemver v BumpPart.major = "1.0.0" ∧
    bumpSemver v BumpPart.minor = "1.0.0" ∧
    bumpSemver v BumpPart.patch = "1.0.0" := by
  refine ⟨?_, ?_, ?_⟩ <;> simp [bumpSemver, h]

/-- Witness for C3 at the malformed input `"invalid"`. -/
theorem bumpSemver_fallback_witness :
    bumpSemver "invalid" BumpPart.major = "1.0.0" ∧
    bumpSemver "invalid" BumpPart.minor = "1.0.0" ∧
    bumpSemver "invalid" BumpPart.patch = "1.0.0" :=
  bumpSemver_fallback "invalid" (by decide)

/-- C2: for every previous snapshot (or absence), identifier list and
category, the next version is the single bump of the base version when
the new-identifier list is non-empty, and the unchanged base version
otherwise — one bump total, never one per new identifier. -/
theorem calculateNextVersion_bumpsOnce (prev : Option RegistryFile)
    (ids : List String) (part : BumpPart) :
    (calculateNextVersion prev ids part).nextVersion =
      (if (calculateNextVersion prev ids part).newIds = []
        then (calculateNextVersion prev ids part).baseVersion
        else bumpSemver (calculateNextVersion prev ids part).baseVersion part) := by
  rw [nextVersion_eq, newIds_eq]
  cases h : ids.filter (fun i => !((prevIdsOf prev).contains i)) <;> simp [h]

/-- C8: with no previous snapshot, a two-element local list and the
`minor` category (the script's default), the result is base `"1.0.0"`,
next `"1.1.0"`, and both identifiers reported new, whatever they are. -/
theorem calculateNextVersion_bootstrap (a b : String) :
    calculateNextVersion none [a, b] BumpPart.minor =
      ⟨"1.0.0", "1.1.0", [a, b]⟩ := by
  simp [calculateNextVersion, prevIdsOf, bump_one_zero_zero_minor]

/-- C4: the reported new identifiers are exactly the local identifiers
filtered to those not contained in the known identifier list (which is
empty when the snapshot is absent and `previous.templates`'s ids when
present); the filter is order-preserving (a sublist of the input) and
keeps duplicates (per-identifier multiplicity is preserved for every
unknown identifier). -/
theorem calculateNextVersion_newIds (prev : Option RegistryFile)
    (ids : List String) (part : BumpPart) :
    prevIdsOf none = [] ∧
    (∀ r : RegistryFile, prevIdsOf (some r) = r.templates.map Template.id) ∧
    (calculateNextVersion prev ids part).newIds =
      ids.filter (fun i => !((prevIdsOf prev).contains i)) ∧
    List.Sublist (calculateNextVersion prev ids part).newIds ids ∧
    (∀ x : String, (prevIdsOf prev).contains x = false →
      (calculateNextVersion prev ids part).newIds.count x = ids.count x) := by
  refine ⟨rfl, fun r => rfl, rfl, ?_, ?_⟩
  · rw [newIds_eq]
    exact List.filter_sublist ids
  · intro x hx
    rw [newIds_eq]
    exact List.count_filter (by simpa using hx)

/-- C5 counterexample: a present snapshot whose `version` field is the
empty string is not used verbatim — the base version becomes `"1.0.0"`,
not `""`. -/
theorem calculateNextVersion_base_verbatim_cex :
    (calculateNextVersion (some (RegistryFile.mk "" [])) [] BumpPart.minor).baseVersion ≠
      (RegistryFile.mk "" ([] : List Template)).version := by decide

/-- C5 amended: when the previous snapshot is absent, the base version
is `"1.0.0"`; when it is present with a non-empty `version` string, the
base version is exactly that string, verbatim and not re-normalized
(the empty string, JavaScript's one falsy string, instead falls back to
`"1.0.0"`). -/
theorem calculateNextVersion_base_verbatim (r : RegistryFile)
    (ids : List String) (part : BumpPart) (h : r.version ≠ "") :
    (calculateNextVersion (some r) ids part).baseVersion = r.version ∧
    (calculateNextVersion none ids part).baseVersion = "1.0.0" := by
  refine ⟨?_, rfl⟩
  rw [baseVersion_eq]
  simp [h]

/-- Witness for the amended C5 at a present snapshot `"1.5.0"`. -/
theorem calculateNextVersion_base_verbatim_witness :
    (calculateNextVersion (some (RegistryFile.mk "1.5.0" [])) [] BumpPart.minor).baseVersion =
      (RegistryFile.mk "1.5.0" ([] : List Template)).version ∧
    (calculateNextVersion none [] BumpPart.minor).baseVersion = "1.0.0" :=
  calculateNextVersion_base_verbatim (RegistryFile.mk "1.5.0" []) [] BumpPart.minor (by decide)

/-- One identifier list arises from another by deleting only occurrences
that the `known` predicate accepts: each element is either kept (in
order) or dropped, and every dropped element is known. -/
inductive RemovesKnown (known : String → Bool) : List String → List String → Prop where
  | nil : RemovesKnown known [] []
  | keep (x : String) {l1 l2 : List String} :
      RemovesKnown known l1 l2 → RemovesKnown known (x :: l1) (x :: l2)
  | drop (x : String) {l1 l2 : List String} :
      known x = true → RemovesKnown known l1 l2 → RemovesKnown known (x :: l1) l2

/-- Deleting known occurrences does not change the unknown residue. -/
lemma RemovesKnown.filter_not_known {known : String → Bool} :
    ∀ {l1 l2 : List String}, RemovesKnown known l1 l2 →
      l1.filter (fun i => !(known i)) = l2.filter (fun i => !(known i)) := by
  intro l1 l2 h
  induction h with
  | nil => rfl
  | keep x h ih => simp [List.filter_cons, ih]
  | drop x hx h ih => simp [List.filter_cons, hx, ih]

/-- C6: deleting occurrences of already-known identifiers from the local
list leaves the whole diff result unchanged (base version, next version
and reported identifiers alike); no known identifier ever appears in the
reported new identifiers; and when every local identifier is known, the
next version is the base version and the report is empty. -/
theorem calculateNextVersion_removalInvariance (r : RegistryFile)
    (ids1 ids2 : List String) (part : BumpPart)
    (h : RemovesKnown (fun i => (prevIdsOf (some r)).contains i) ids1 ids2) :
    calculateNextVersion (some r) ids1 part = calculateNextVersion (some r) ids2 part ∧
    (calculateNextVersion (some r) ids1 part).newIds.all
      (fun x => !((prevIdsOf (some r)).contains x)) = true ∧
    (ids1.all (fun x => (prevIdsOf (some r)).contains x) = true →
      (calculateNextVersion (some r) ids1 part).nextVersion =
        (calculateNextVersion (some r) ids1 part).baseVersion ∧
      (calculateNextVersion (some r) ids1 part).newIds = []) := by
  have hf := RemovesKnown.filter_not_known h
  refine ⟨?_, ?_, ?_⟩
  · simp only [calculateNextVersion]
    rw [hf]
  · rw [newIds_eq]
    rw [List.all_eq_true]
    intro x hx
    exact (List.mem_filter.mp hx).2
  · intro hall
    have hnil : ids1.filter (fun i => !((prevIdsOf (some r)).contains i)) = [] := by
      rw [List.filter_eq_nil_iff]
      intro a ha
      simpa using List.all_eq_true.mp hall a ha
    refine ⟨?_, ?_⟩
    · rw [nextVersion_eq, hnil]
      simp
    · rw [newIds_eq, hnil]

/-- Witness for C6: dropping the known identifier `"old-template"` from
the local list leaves the evaluation unchanged. -/
theorem calculateNextVersion_removalInvariance_witness :
    calculateNextVersion
        (some (RegistryFile.mk "1.3.0" [Template.mk "homepage", Template.mk "old-template"]))
        ["homepage", "old-template"] BumpPart.minor =
      calculateNextVersion
        (some (RegistryFile.mk "1.3.0" [Template.mk "homepage", Template.mk "old-template"]))
        ["homepage"] BumpPart.minor ∧
    (calculateNextVersion
        (some (RegistryFile.mk "1.3.0" [Template.mk "homepage", Template.mk "old-template"]))
        ["homepage", "old-template"] BumpPart.minor).newIds.all
      (fun x => !((prevIdsOf (some (RegistryFile.mk "1.3.0"
        [Template.mk "homepage", Template.mk "old-template"]))).contains x)) = true ∧
    (["homepage", "old-template"].all
        (fun x => (prevIdsOf (some (RegistryFile.mk "1.3.0"
          [Template.mk "homepage", Template.mk "old-template"]))).contains x) = true →
      (calculateNextVersion
          (some (RegistryFile.mk "1.3.0" [Template.mk "homepage", Template.mk "old-template"]))
          ["homepage", "old-template"] BumpPart.minor).nextVersion =
        (calculateNextVersion
          (some (RegistryFile.mk "1.3.0" [Template.mk "homepage", Template.mk "old-template"]))
          ["homepage", "old-template"] BumpPart.minor).baseVersion ∧
      (calculateNextVersion
          (some (RegistryFile.mk "1.3.0" [Template.mk "homepage", Template.mk "old-template"]))
          ["homepage", "old-template"] BumpPart.minor).newIds = []) :=
  calculateNextVersion_removalInvariance
    (RegistryFile.mk "1.3.0" [Template.mk "homepage", Template.mk "old-template"])
    ["homepage", "old-template"] ["homepage"] BumpPart.minor
    (RemovesKnown.keep "homepage" (RemovesKnown.drop "old-template" (by decide) RemovesKnown.nil))

/-- C7 counterexample: evaluating a snapshot with the empty-string
version against its own template list returns next version `"1.0.0"`,
not the snapshot's version `""`. -/
theorem calculateNextVersion_noop_cex :
    (calculateNextVersion (some (RegistryFile.mk "" []))
        ((RegistryFile.mk "" ([] : List Template)).templates.map Template.id)
        BumpPart.minor).nextVersion ≠
      (RegistryFile.mk "" ([] : List Template)).version := by decide

/-- C7 amended: evaluating a snapshot against exactly its own template
identifiers always reports no new identifiers, and returns the
snapshot's version unchanged whenever that version is non-empty (the
empty-string version instead falls back to `"1.0.0"`). -/
theorem calculateNextVersion_noop (r : RegistryFile) (part : BumpPart)
    (h : r.version ≠ "") :
    (calculateNextVersion (some r) (r.templates.map Template.id) part).nextVersion =
      r.version ∧
    (calculateNextVersion (some r) (r.templates.map Template.id) part).newIds = [] := by
  have hnil : (r.templates.map Template.id).filter
      (fun i => !((prevIdsOf (some r)).contains i)) = [] := by
    rw [List.filter_eq_nil_iff]
    intro a ha
    have hmem : a ∈ prevIdsOf (some r) := ha
    simpa using hmem
  refine ⟨?_, ?_⟩
  · rw [nextVersion_eq, hnil]
    simp [baseVersion_eq, h]
  · rw [newIds_eq, hnil]

/-- Witness for the amended C7 at the snapshot `"1.5.0"` with two templates. -/
theorem calculateNextVersion_noop_witness :
    (calculateNextVersion
        (some (RegistryFile.mk "1.5.0" [Template.mk "homepage", Template.mk "jellyfin-server"]))
        ((RegistryFile.mk "1.5.0"
          [Template.mk "homepage", Template.mk "jellyfin-server"]).templates.map Template.id)
        BumpPart.minor).nextVersion = "1.5.0" ∧
    (calculateNextVersion
        (some (RegistryFile.mk "1.5.0" [Template.mk "homepage", Template.mk "jellyfin-server"]))
        ((RegistryFile.mk "1.5.0"
          [Template.mk "homepage", Template.mk "jellyfin-server"]).templates.map Template.id)
        BumpPart.minor).newIds = [] :=
  calculateNextVersion_noop
    (RegistryFile.mk "1.5.0" [Template.mk "homepage", Template.mk "jellyfin-server"])
    BumpPart.minor (by decide)

/-- C9: a present snapshot with the empty-string version is treated as
if absent: the base version is `"1.0.0"`, the next version is `"1.0.0"`
or its bump, and the next version is never the empty string. -/
theorem calculateNextVersion_emptyVersion (r : RegistryFile)
    (ids : List String) (part : BumpPart) (h : r.version = "") :
    (calculateNextVersion (some r) ids part).baseVersion = "1.0.0" ∧
    ((calculateNextVersion (some r) ids part).nextVersion = "1.0.0" ∨
      (calculateNextVersion (some r) ids part).nextVersion = bumpSemver "1.0.0" part) ∧
    (calculateNextVersion (some r) ids part).nextVersion ≠ "" := by
  have hb : (calculateNextVersion (some r) ids part).baseVersion = "1.0.0" := by
    rw [baseVersion_eq]
    simp [h]
  have hbump : bumpSemver "1.0.0" part ≠ "" := by
    cases part <;> decide
  refine ⟨hb, ?_, ?_⟩
  · rw [nextVersion_eq, hb]
    split
    · exact Or.inr rfl
    · exact Or.inl rfl
  · rw [nextVersion_eq, hb]
    split
    · exact hbump
    · decide

/-- Witness for C9 at a snapshot with empty version and one new local identifier. -/
theorem calculateNextVersion_emptyVersion_witness :
    (calculateNextVersion (some (RegistryFile.mk "" [])) ["x"] BumpPart.minor).baseVersion =
      "1.0.0" ∧
    ((calculateNextVersion (some (RegistryFile.mk "" [])) ["x"] BumpPart.minor).nextVersion =
        "1.0.0" ∨
      (calculateNextVersion (some (RegistryFile.mk "" [])) ["x"] BumpPart.minor).nextVersion =
        bumpSemver "1.0.0" BumpPart.minor) ∧
    (calculateNextVersion (some (RegistryFile.mk "" [])) ["x"] BumpPart.minor).nextVersion ≠
      "" :=
  calculateNextVersion_emptyVersion (RegistryFile.mk "" []) ["x"] BumpPart.minor (by decide)

/-- C10: a present snapshot whose version is non-empty but rejected by
the semver pattern passes that malformed string through unchanged as
the next version whenever no local identifier is outside the known set
— so the result's next version need not be a well-formed semver. -/
theorem calculateNextVersion_malformedPassthrough (r : RegistryFile)
    (ids : List String) (part : BumpPart) (h1 : r.version ≠ "")
    (h2 : matchSemver r.version = none)
    (h3 : ids.all (fun x => (prevIdsOf (some r)).contains x) = true) :
    (calculateNextVersion (some r) ids part).nextVersion = r.version := by
  have hnil : ids.filter (fun i => !((prevIdsOf (some r)).contains i)) = [] := by
    rw [List.filter_eq_nil_iff]
    intro a ha
    simpa using List.all_eq_true.mp h3 a ha
  rw [nextVersion_eq, hnil]
  simp [baseVersion_eq, h1]

/-- Witness for C10: the malformed version `"not-a-version"` is returned verbatim. -/
theorem calculateNextVersion_malformedPassthrough_witness :
    (calculateNextVersion (some (RegistryFile.mk "not-a-version" [Template.mk "homepage"]))
        ["homepage"] BumpPart.minor).nextVersion =
      (RegistryFile.mk "not-a-version" [Template.mk "homepage"]).version :=
  calculateNextVersion_malformedPassthrough
    (RegistryFile.mk "not-a-version" [Template.mk "homepage"])
    ["homepage"] BumpPart.minor (by decide) (by decide) (by decide)

example : matchSemver "1.2.3" = some (1, 2, 3) := by decide
example : matchSemver "1.2.3-beta.1" = some (1, 2, 3) := by decide
example : matchSemver "invalid" = none := by decide
example : matchSemver "" = none := by decide
example : matchSemver "1.2.3x" = none := by decide
example : bumpSemver "1.1.0" BumpPart.major = "2.0.0" := by decide
example : bumpSemver "1.2.3-beta.1" BumpPart.minor = "1.3.0" := by decide
example : bumpSemver "1.1.0" BumpPart.patch = "1.1.1" := by decide
example : bumpSemver "" BumpPart.minor = "1.0.0" := by decide

end Registry
